import Mathlib

/-!
Verification of the spending-condition decoder of ledger-stacks
(app/rust/src/parser/spending_condition.rs): the signer-record, singlesig,
auth-field and multisig decoders, the dispatcher, in-place signature
clearing (canonicalization) and sighash initialization.

Embedding conventions:
- Byte buffers are `List Nat`, one element per byte.
- Parsers follow the nom combinators used by the source (`take`,
  `be_u8` .. `be_u64`): on success they return the unconsumed leftover
  together with the parsed value.
- A Rust panic (a store into the 16-slot `ArrayVec` at or beyond its
  capacity) is the distinct outcome `PRes.abort`.
- In-place mutation (`clear_signature`, `init_sighash`) is modelled as a
  function from the buffer to the updated buffer; the borrowed views of
  the source (`self.0`, `self.raw`) become explicit offsets into that
  buffer.
-/

namespace Stx

/-- Error taxonomy of the parser.  The `ParserError` enum itself lives in
error.rs, which is not part of src; the variants are named after the
taxonomy of the spec (section 7) and the constructors the source file uses:
`parser_unexpected_value` is `unexpectedValue`,
`parser_invalid_pubkey_encoding` is `invalidPublicKeyEncoding`,
`parser_value_out_of_range` is `valueOutOfRange`, `parser_no_data` is
`noData`, and a nom combinator failing on a short buffer is
`insufficientData`. -/
inductive ParserError where
  | insufficientData
  | unexpectedValue
  | invalidPublicKeyEncoding
  | valueOutOfRange
  | noData
deriving DecidableEq, Repr

/-- Outcome of running a decoder: success, a `ParserError`, or a Rust
panic (`abort`). -/
inductive PRes (α : Type) where
  | ok : α → PRes α
  | err : ParserError → PRes α
  | abort : PRes α
deriving DecidableEq, Repr

instance (α : Type) [DecidableEq α] : DecidableEq (Except ParserError α) :=
  fun a b =>
    match a, b with
    | .ok x, .ok y =>
      if h : x = y then .isTrue (by rw [h]) else .isFalse (by
        intro hh
        cases hh
        exact h rfl)
    | .error x, .error y =>
      if h : x = y then .isTrue (by rw [h]) else .isFalse (by
        intro hh
        cases hh
        exact h rfl)
    | .ok _, .error _ => .isFalse (by intro hh; cases hh)
    | .error _, .ok _ => .isFalse (by intro hh; cases hh)

/-- Model of nom `bytes::complete::take(n)`: succeed with the first `n` bytes
and the rest, or fail when fewer than `n` bytes remain. -/
def take (n : Nat) (bs : List Nat) : PRes (List Nat × List Nat) :=
  if n ≤ bs.length then .ok (bs.drop n, bs.take n) else .err .insufficientData

/-- Big-endian value of a byte list. -/
def beVal (l : List Nat) : Nat :=
  l.foldl (fun a b => a * 256 + b) 0

/-- Shared body of the nom big-endian integer combinators: read `k` bytes
and interpret them big-endian. -/
def beBytes (k : Nat) (bs : List Nat) : PRes (List Nat × Nat) :=
  match take k bs with
  | .ok (rest, chunk) => .ok (rest, beVal chunk)
  | .err e => .err e
  | .abort => .abort

/-- Model of nom `number::complete::be_u8`. -/
def be_u8 : List Nat → PRes (List Nat × Nat) := beBytes 1

/-- Model of nom `number::complete::be_u16`. -/
def be_u16 : List Nat → PRes (List Nat × Nat) := beBytes 2

/-- Model of nom `number::complete::be_u32`. -/
def be_u32 : List Nat → PRes (List Nat × Nat) := beBytes 4

/-- Model of nom `number::complete::be_u64`. -/
def be_u64 : List Nat → PRes (List Nat × Nat) := beBytes 8

/-- 16-byte origin fee and nonce plus the 66-byte origin signature. -/
def STANDARD_SINGLESIG_AUTH_LEN : Nat := 82

/-- 16-byte origin fee and nonce, 4-byte num auth fields, 2-byte num
signatures required. -/
def STANDARD_MULTISIG_AUTH_LEN : Nat := 22

/-- 1-byte hash mode, 20-byte public key hash, 8-byte nonce, 8-byte fee
rate. -/
def SPENDING_CONDITION_SIGNER_LEN : Nat := 37

/-- 65-byte signature plus 1-byte signature public-key encoding type. -/
def SINGLE_SPENDING_CONDITION_LEN : Nat := 66

/-- Modelled from the spec: `PUBKEY_LEN` is declared in
parser_common.rs, which is not part of src; spec sections 4.3 and 6 fix
public keys at 33 bytes. -/
def PUBKEY_LEN : Nat := 33

/-- Modelled from the spec: `SIGNATURE_LEN` is declared in
parser_common.rs, which is not part of src; spec sections 4.2 and 6 fix
recoverable signatures at 65 bytes. -/
def SIGNATURE_LEN : Nat := 65

/-- Modelled from the spec: `HashMode` is declared in parser_common.rs,
which is not part of src.  Spec section 6 gives the wire mapping
0=P2PKH, 1=P2WPKH, 2=P2SH, 3=P2WSH. -/
inductive HashMode where
  | P2PKH
  | P2WPKH
  | P2SH
  | P2WSH
deriving DecidableEq, Repr

/-- Modelled from the spec: `HashMode::try_from(u8)`; spec section 4.1
says any byte other than a known hash mode fails `UnexpectedValue`. -/
def HashMode.try_from (b : Nat) : Except ParserError HashMode :=
  match b with
  | 0 => .ok .P2PKH
  | 1 => .ok .P2WPKH
  | 2 => .ok .P2SH
  | 3 => .ok .P2WSH
  | _ => .error .unexpectedValue

/-- Ways a public key can be encoded; wire discriminants Compressed = 0,
Uncompressed = 1. -/
inductive TransactionPublicKeyEncoding where
  | Compressed
  | Uncompressed
deriving DecidableEq, Repr

/-- Wire discriminant of the encoding (`as u8` in the source). -/
def TransactionPublicKeyEncoding.toByte : TransactionPublicKeyEncoding → Nat
  | .Compressed => 0
  | .Uncompressed => 1

/-- P2WPKH scripts may only be derived from compressed public keys. -/
def TransactionPublicKeyEncoding.is_valid_hash_mode
    (enc : TransactionPublicKeyEncoding) (mode : HashMode) : Bool :=
  if mode = HashMode.P2WPKH ∧ enc ≠ TransactionPublicKeyEncoding.Compressed then
    false
  else
    true

/-- Signer record: a 37-byte view (hash mode, pubkey hash, nonce, fee). -/
structure SpendingConditionSigner where
  data : List Nat
deriving DecidableEq, Repr

/-- SpendingConditionSigner::from_bytes: `take(37)` and keep the first 37
bytes as the record. -/
def SpendingConditionSigner.from_bytes (bytes : List Nat) :
    PRes (List Nat × SpendingConditionSigner) :=
  match take SPENDING_CONDITION_SIGNER_LEN bytes with
  | .ok (raw, _) => .ok (raw, ⟨bytes.take SPENDING_CONDITION_SIGNER_LEN⟩)
  | .err e => .err e
  | .abort => .abort

/-- SpendingConditionSigner::hash_mode: decode byte 0 of the record. -/
def SpendingConditionSigner.hash_mode (s : SpendingConditionSigner) :
    Except ParserError HashMode :=
  HashMode.try_from (s.data.getD 0 0)

/-- SpendingConditionSigner::nonce: big-endian u64 at bytes 21..29. -/
def SpendingConditionSigner.nonce (s : SpendingConditionSigner) :
    Except ParserError Nat :=
  match be_u64 (s.data.drop 21) with
  | .ok (_, v) => .ok v
  | _ => .error .unexpectedValue

/-- SpendingConditionSigner::fee: big-endian u64 at bytes 29..37. -/
def SpendingConditionSigner.fee (s : SpendingConditionSigner) :
    Except ParserError Nat :=
  match be_u64 (s.data.drop 29) with
  | .ok (_, v) => .ok v
  | _ => .error .unexpectedValue

/-- Singlesig witness: a 66-byte view (encoding tag, 65-byte signature). -/
structure SinglesigSpendingCondition where
  data : List Nat
deriving DecidableEq, Repr

/-- SinglesigSpendingCondition::from_bytes: `take(SIGNATURE_LEN + 1)` and
keep the first 66 bytes as the witness. -/
def SinglesigSpendingCondition.from_bytes (bytes : List Nat) :
    PRes (List Nat × SinglesigSpendingCondition) :=
  match take (SIGNATURE_LEN + 1) bytes with
  | .ok (raw, _) => .ok (raw, ⟨bytes.take SINGLE_SPENDING_CONDITION_LEN⟩)
  | .err e => .err e
  | .abort => .abort

/-- SinglesigSpendingCondition::key_encoding: byte 0 must be the
Compressed (0) or Uncompressed (1) discriminant. -/
def SinglesigSpendingCondition.key_encoding (s : SinglesigSpendingCondition) :
    Except ParserError TransactionPublicKeyEncoding :=
  match s.data.getD 0 0 with
  | 0 => .ok .Compressed
  | 1 => .ok .Uncompressed
  | _ => .error .invalidPublicKeyEncoding

/-- One slot of a multisig witness: a bare public key or a recoverable
signature, each with its own encoding. -/
inductive TransactionAuthField where
  | PublicKey : TransactionPublicKeyEncoding → List Nat → TransactionAuthField
  | Signature : TransactionPublicKeyEncoding → List Nat → TransactionAuthField
deriving DecidableEq, Repr

/-- TransactionAuthField::from_bytes: one tag byte
(0=pubkey-compressed, 1=pubkey-uncompressed, 2=sig-compressed,
3=sig-uncompressed, the `TransactionAuthFieldID` discriminants), then 33
key bytes or 65 signature bytes; any other tag fails `UnexpectedValue`. -/
def TransactionAuthField.from_bytes (bytes : List Nat) :
    PRes (List Nat × TransactionAuthField) :=
  match be_u8 bytes with
  | .err e => .err e
  | .abort => .abort
  | .ok (bytes1, id) =>
    match id with
    | 0 =>
      match take PUBKEY_LEN bytes1 with
      | .ok (rest, buf) => .ok (rest, .PublicKey .Compressed buf)
      | .err e => .err e
      | .abort => .abort
    | 1 =>
      match take PUBKEY_LEN bytes1 with
      | .ok (rest, buf) => .ok (rest, .PublicKey .Uncompressed buf)
      | .err e => .err e
      | .abort => .abort
    | 2 =>
      match take SIGNATURE_LEN bytes1 with
      | .ok (rest, buf) => .ok (rest, .Signature .Compressed buf)
      | .err e => .err e
      | .abort => .abort
    | 3 =>
      match take SIGNATURE_LEN bytes1 with
      | .ok (rest, buf) => .ok (rest, .Signature .Uncompressed buf)
      | .err e => .err e
      | .abort => .abort
    | _ => .err .unexpectedValue

/-- Multisig witness: the raw consumed span, the decoded auth fields and
the required-signature count. -/
structure MultisigSpendingCondition where
  raw : List Nat
  auth_fields : List TransactionAuthField
  signatures_required : Nat
deriving DecidableEq, Repr

/-- Loop of MultisigSpendingCondition::from_bytes:
`for i in 0..num_fields { let (e, tx) = TransactionAuthField::from_bytes(end)?;
auth_fields[i] = tx; end = e; }`.  Each parsed field is stored at index
`i` of an `ArrayVec` with capacity 16; a store at index 16 or beyond is
out of capacity and aborts (Rust panic). -/
def parseAuthFields : Nat → Nat → List Nat →
    PRes (List Nat × List TransactionAuthField)
  | 0, _, bs => .ok (bs, [])
  | count + 1, i, bs =>
    match TransactionAuthField.from_bytes bs with
    | .err e => .err e
    | .abort => .abort
    | .ok (bs1, tx) =>
      if 16 ≤ i then .abort
      else
        match parseAuthFields count (i + 1) bs1 with
        | .ok (bs2, fields) => .ok (bs2, tx :: fields)
        | .err e => .err e
        | .abort => .abort

/-- MultisigSpendingCondition::from_bytes: 4-byte big-endian field count,
that many auth fields, a 2-byte big-endian required-signature count
(which must not exceed the field count), and the whole consumed span
recorded as `raw`. -/
def MultisigSpendingCondition.from_bytes (bytes : List Nat) :
    PRes (List Nat × MultisigSpendingCondition) :=
  match be_u32 bytes with
  | .err e => .err e
  | .abort => .abort
  | .ok (end0, num_fields) =>
    match parseAuthFields num_fields 0 end0 with
    | .err e => .err e
    | .abort => .abort
    | .ok (end1, auth_fields) =>
      match be_u16 end1 with
      | .err e => .err e
      | .abort => .abort
      | .ok (end2, signature_count) =>
        if num_fields < signature_count then .err .valueOutOfRange
        else
          match take (bytes.length - end2.length) bytes with
          | .ok (rest, raw) => .ok (rest, ⟨raw, auth_fields, signature_count⟩)
          | .err e => .err e
          | .abort => .abort

/-- MultisigSpendingCondition::required_signatures. -/
def MultisigSpendingCondition.required_signatures
    (m : MultisigSpendingCondition) : Nat :=
  m.signatures_required

/-- MultisigSpendingCondition::num_fields. -/
def MultisigSpendingCondition.num_fields (m : MultisigSpendingCondition) : Nat :=
  m.auth_fields.length

/-- Witness of a spending condition: singlesig or multisig. -/
inductive SpendingConditionSignature where
  | Singlesig : SinglesigSpendingCondition → SpendingConditionSignature
  | Multisig : MultisigSpendingCondition → SpendingConditionSignature
deriving DecidableEq, Repr

/-- Top-level aggregate: signer record plus witness. -/
structure TransactionSpendingCondition where
  signer : SpendingConditionSigner
  signature : SpendingConditionSignature
deriving DecidableEq, Repr

/-- TransactionSpendingCondition::from_bytes: decode the signer record,
then branch on its hash mode: P2PKH/P2WPKH decode a singlesig witness
(whose encoding must be valid for the hash mode), P2SH/P2WSH decode a
multisig witness. -/
def TransactionSpendingCondition.from_bytes (bytes : List Nat) :
    PRes (List Nat × TransactionSpendingCondition) :=
  match SpendingConditionSigner.from_bytes bytes with
  | .err e => .err e
  | .abort => .abort
  | .ok (raw, signer) =>
    match signer.hash_mode with
    | .error e => .err e
    | .ok hash_mode =>
      match hash_mode with
      | .P2PKH | .P2WPKH =>
        match SinglesigSpendingCondition.from_bytes raw with
        | .err e => .err e
        | .abort => .abort
        | .ok (raw2, sig) =>
          match sig.key_encoding with
          | .error e => .err e
          | .ok enc =>
            if ¬ enc.is_valid_hash_mode hash_mode then
              .err .invalidPublicKeyEncoding
            else
              .ok (raw2, ⟨signer, .Singlesig sig⟩)
      | .P2WSH | .P2SH =>
        match MultisigSpendingCondition.from_bytes raw with
        | .err e => .err e
        | .abort => .abort
        | .ok (leftover, m) => .ok (leftover, ⟨signer, .Multisig m⟩)

/-- TransactionSpendingCondition::is_singlesig. -/
def TransactionSpendingCondition.is_singlesig
    (c : TransactionSpendingCondition) : Bool :=
  match c.signature with
  | .Singlesig _ => true
  | _ => false

/-- TransactionSpendingCondition::is_multisig. -/
def TransactionSpendingCondition.is_multisig
    (c : TransactionSpendingCondition) : Bool :=
  match c.signature with
  | .Multisig _ => true
  | _ => false

/-- TransactionSpendingCondition::num_auth_fields: Some only for
multisig. -/
def TransactionSpendingCondition.num_auth_fields
    (c : TransactionSpendingCondition) : Option Nat :=
  match c.signature with
  | .Multisig m => some m.num_fields
  | _ => none

/-- TransactionSpendingCondition::required_signatures: Some only for
multisig. -/
def TransactionSpendingCondition.required_signatures
    (c : TransactionSpendingCondition) : Option Nat :=
  match c.signature with
  | .Multisig m => some m.required_signatures
  | _ => none

/-- Model of `ptr.write_bytes(val, count)` at offset `off` of a buffer:
set the `count` bytes starting at `off` to `val`, leaving everything
else unchanged. -/
def writeBytes : List Nat → Nat → Nat → Nat → List Nat
  | buf, _, _, 0 => buf
  | [], _, _, _ => []
  | _ :: bs, 0, v, c + 1 => v :: writeBytes bs 0 v c
  | b :: bs, o + 1, v, c + 1 => b :: writeBytes bs o v (c + 1)

/-- SinglesigSpendingCondition::clear_signature, acting on the
transaction buffer `buf`; `off` is the offset of the 66-byte witness
region (`self.0`) inside it.  Both `write_bytes` calls of the source go
through the same pointer, the region start: the first writes one byte
with the Compressed discriminant, the second writes `SIGNATURE_LEN` zero
bytes, also starting at the region start. -/
def SinglesigSpendingCondition.clear_signature (buf : List Nat) (off : Nat) :
    List Nat :=
  writeBytes (writeBytes buf off TransactionPublicKeyEncoding.Compressed.toByte 1)
    off 0 SIGNATURE_LEN

/-- MultisigSpendingCondition::clear_signature, acting on the
transaction buffer `buf`; `rawOff` and `rawLen` locate the recorded raw
span (`self.raw`) inside it.  The source zeroes `raw.len() - 2` bytes
from the start of the span, keeping the trailing 2-byte signature
count. -/
def MultisigSpendingCondition.clear_signature (buf : List Nat)
    (rawOff rawLen : Nat) : List Nat :=
  writeBytes buf rawOff 0 (rawLen - 2)

/-- SpendingConditionSignature::clear_signature: dispatch to the
singlesig or multisig clearing; `off` is the offset of the byte region of the variant (`self.0` of a singlesig, `self.raw` of a multisig) inside
the buffer. -/
def SpendingConditionSignature.clear_signature
    (sig : SpendingConditionSignature) (buf : List Nat) (off : Nat) :
    List Nat :=
  match sig with
  | .Singlesig _ => SinglesigSpendingCondition.clear_signature buf off
  | .Multisig m => MultisigSpendingCondition.clear_signature buf off m.raw.length

/-- TransactionSpendingCondition::init_sighash: write the canonical
placeholder for the authorization section into `buf`, returning the
updated buffer together with the number of bytes written or an error. -/
def TransactionSpendingCondition.init_sighash
    (c : TransactionSpendingCondition) (buf : List Nat) :
    List Nat × Except ParserError Nat :=
  if c.is_singlesig ∧ STANDARD_SINGLESIG_AUTH_LEN ≤ buf.length then
    (writeBytes buf 0 0 STANDARD_SINGLESIG_AUTH_LEN,
      .ok STANDARD_SINGLESIG_AUTH_LEN)
  else if c.is_multisig ∧ STANDARD_MULTISIG_AUTH_LEN ≤ buf.length then
    let buf1 := writeBytes buf 0 0 20
    match c.required_signatures with
    | none => (buf1, .error .noData)
    | some count =>
      ((buf1.set 20 (count / 256 % 256)).set 21 (count % 256),
        .ok STANDARD_MULTISIG_AUTH_LEN)
  else
    (buf, .error .noData)

/-- Buffer-tracking form of SpendingConditionSigner::from_bytes: the
source only reads through its `&[u8]` argument, so every branch returns
the buffer unchanged next to the parse result. -/
def SpendingConditionSigner.from_bytes_tracked (bytes : List Nat) :
    List Nat × PRes (List Nat × SpendingConditionSigner) :=
  match take SPENDING_CONDITION_SIGNER_LEN bytes with
  | .ok (raw, _) => (bytes, .ok (raw, ⟨bytes.take SPENDING_CONDITION_SIGNER_LEN⟩))
  | .err e => (bytes, .err e)
  | .abort => (bytes, .abort)

/-- Buffer-tracking form of SinglesigSpendingCondition::from_bytes: the
source only reads through its `&[u8]` argument. -/
def SinglesigSpendingCondition.from_bytes_tracked (bytes : List Nat) :
    List Nat × PRes (List Nat × SinglesigSpendingCondition) :=
  match take (SIGNATURE_LEN + 1) bytes with
  | .ok (raw, _) => (bytes, .ok (raw, ⟨bytes.take SINGLE_SPENDING_CONDITION_LEN⟩))
  | .err e => (bytes, .err e)
  | .abort => (bytes, .abort)

/-- Buffer-tracking form of MultisigSpendingCondition::from_bytes (and
of the TransactionAuthField::from_bytes loop it runs): the whole decode
path only reads through `&[u8]` slices, so every branch returns the
buffer unchanged next to the parse result. -/
def MultisigSpendingCondition.from_bytes_tracked (bytes : List Nat) :
    List Nat × PRes (List Nat × MultisigSpendingCondition) :=
  match be_u32 bytes with
  | .err e => (bytes, .err e)
  | .abort => (bytes, .abort)
  | .ok (end0, num_fields) =>
    match parseAuthFields num_fields 0 end0 with
    | .err e => (bytes, .err e)
    | .abort => (bytes, .abort)
    | .ok (end1, auth_fields) =>
      match be_u16 end1 with
      | .err e => (bytes, .err e)
      | .abort => (bytes, .abort)
      | .ok (end2, signature_count) =>
        if num_fields < signature_count then (bytes, .err .valueOutOfRange)
        else
          match take (bytes.length - end2.length) bytes with
          | .ok (rest, raw) =>
            (bytes, .ok (rest, ⟨raw, auth_fields, signature_count⟩))
          | .err e => (bytes, .err e)
          | .abort => (bytes, .abort)

/-- Buffer-tracking form of TransactionSpendingCondition::from_bytes.
The signer decoder consumes the 37-byte prefix and hands the witness
decoder the suffix of the same buffer; the buffer after the call is the
untouched prefix spliced with whatever the witness decoder left in the
suffix, so any write by a sub-decoder would surface here. -/
def TransactionSpendingCondition.from_bytes_tracked (bytes : List Nat) :
    List Nat × PRes (List Nat × TransactionSpendingCondition) :=
  let s0 := SpendingConditionSigner.from_bytes_tracked bytes
  match s0.2 with
  | .err e => (s0.1, .err e)
  | .abort => (s0.1, .abort)
  | .ok (raw, signer) =>
    match signer.hash_mode with
    | .error e => (s0.1, .err e)
    | .ok hash_mode =>
      match hash_mode with
      | .P2PKH | .P2WPKH =>
        let s1 := SinglesigSpendingCondition.from_bytes_tracked raw
        let spliced := s0.1.take SPENDING_CONDITION_SIGNER_LEN ++ s1.1
        match s1.2 with
        | .err e => (spliced, .err e)
        | .abort => (spliced, .abort)
        | .ok (raw2, sig) =>
          match sig.key_encoding with
          | .error e => (spliced, .err e)
          | .ok enc =>
            (spliced,
              if ¬ enc.is_valid_hash_mode hash_mode then
                .err .invalidPublicKeyEncoding
              else
                .ok (raw2, ⟨signer, .Singlesig sig⟩))
      | .P2WSH | .P2SH =>
        let s1 := MultisigSpendingCondition.from_bytes_tracked raw
        let spliced := s0.1.take SPENDING_CONDITION_SIGNER_LEN ++ s1.1
        match s1.2 with
        | .err e => (spliced, .err e)
        | .abort => (spliced, .abort)
        | .ok (leftover, m) => (spliced, .ok (leftover, ⟨signer, .Multisig m⟩))

theorem length_writeBytes (buf : List Nat) (o v c : Nat) :
    (writeBytes buf o v c).length = buf.length := by
  induction buf generalizing o c with
  | nil => cases c <;> simp [writeBytes]
  | cons b bs ih =>
    cases c with
    | zero => simp [writeBytes]
    | succ c =>
      cases o with
      | zero => simp [writeBytes, ih]
      | succ o => simp [writeBytes, ih]

theorem getElem?_writeBytes (buf : List Nat) (o v c i : Nat) :
    (writeBytes buf o v c)[i]? =
      if o ≤ i ∧ i < o + c ∧ i < buf.length then some v else buf[i]? := by
  induction buf generalizing o c i with
  | nil =>
    have h : writeBytes [] o v c = [] := by cases c <;> simp [writeBytes]
    rw [h, if_neg (by simp)]
  | cons b bs ih =>
    cases c with
    | zero =>
      have h0 : writeBytes (b :: bs) o v 0 = b :: bs := by simp [writeBytes]
      rw [h0, if_neg (by omega)]
    | succ c =>
      cases o with
      | zero =>
        cases i with
        | zero =>
          have hstep : writeBytes (b :: bs) 0 v (c + 1) = v :: writeBytes bs 0 v c := rfl
          rw [hstep, if_pos ⟨Nat.le_refl 0, by omega, by simp⟩,
            List.getElem?_cons_zero]
        | succ i =>
          have hstep : writeBytes (b :: bs) 0 v (c + 1) = v :: writeBytes bs 0 v c := rfl
          rw [hstep, List.getElem?_cons_succ, ih]
          simp only [List.getElem?_cons_succ, List.length_cons]
          split_ifs with h1 h2 <;> try rfl
          all_goals (exfalso; omega)
      | succ o =>
        have hstep : writeBytes (b :: bs) (o + 1) v (c + 1) =
            b :: writeBytes bs o v (c + 1) := rfl
        cases i with
        | zero =>
          rw [hstep, if_neg (by omega), List.getElem?_cons_zero,
            List.getElem?_cons_zero]
        | succ i =>
          rw [hstep, List.getElem?_cons_succ, ih]
          simp only [List.getElem?_cons_succ, List.length_cons]
          split_ifs with h1 h2 <;> try rfl
          all_goals (exfalso; omega)

theorem writeBytes_absorb (buf : List Nat) (o v c1 c2 : Nat) (h : c1 ≤ c2) :
    writeBytes (writeBytes buf o v c1) o v c2 = writeBytes buf o v c2 := by
  apply List.ext_getElem?
  intro i
  rw [getElem?_writeBytes, getElem?_writeBytes, getElem?_writeBytes, length_writeBytes]
  split_ifs with h1 h2 <;> try rfl
  all_goals (exfalso; omega)

theorem getD_take_of_lt (l : List Nat) (n i : Nat) (h : i < n) :
    (l.take n).getD i 0 = l.getD i 0 := by
  rw [List.getD_eq_getElem?_getD, List.getD_eq_getElem?_getD, List.getElem?_take,
    if_pos h]

theorem getD_drop_add (l : List Nat) (n i : Nat) :
    (l.drop n).getD i 0 = l.getD (n + i) 0 := by
  rw [List.getD_eq_getElem?_getD, List.getD_eq_getElem?_getD, List.getElem?_drop]

theorem take_of_le (n : Nat) (bs : List Nat) (h : n ≤ bs.length) :
    take n bs = .ok (bs.drop n, bs.take n) := by
  unfold take
  rw [if_pos h]

theorem take_of_gt (n : Nat) (bs : List Nat) (h : bs.length < n) :
    take n bs = .err .insufficientData := by
  unfold take
  rw [if_neg (by omega)]

theorem signer_from_bytes_of_le (bs : List Nat) (h : 37 ≤ bs.length) :
    SpendingConditionSigner.from_bytes bs = .ok (bs.drop 37, ⟨bs.take 37⟩) := by
  simp only [SpendingConditionSigner.from_bytes, SPENDING_CONDITION_SIGNER_LEN]
  rw [take_of_le 37 bs h]

theorem signer_from_bytes_of_gt (bs : List Nat) (h : bs.length < 37) :
    SpendingConditionSigner.from_bytes bs = .err .insufficientData := by
  simp only [SpendingConditionSigner.from_bytes, SPENDING_CONDITION_SIGNER_LEN]
  rw [take_of_gt 37 bs h]

theorem singlesig_from_bytes_of_le (bs : List Nat) (h : 66 ≤ bs.length) :
    SinglesigSpendingCondition.from_bytes bs = .ok (bs.drop 66, ⟨bs.take 66⟩) := by
  simp only [SinglesigSpendingCondition.from_bytes, SIGNATURE_LEN,
    SINGLE_SPENDING_CONDITION_LEN]
  rw [take_of_le 66 bs h]

/-- One well-formed auth field: a compressed public key tag followed by
33 key bytes. -/
def c1Field : List Nat := 0 :: List.replicate 33 7

/-- Multisig witness bytes declaring 17 auth fields, carrying 17
well-formed fields and a trailing required-signature count of 2. -/
def c1Input : List Nat := [0, 0, 0, 17] ++ (List.replicate 17 c1Field).flatten ++ [0, 2]

set_option maxRecDepth 10000 in
/-- Claim C1: a decoded multisig field count above 16 should fail
`ValueOutOfRange` before any auth field is read.  The source has no such
check: on 17 well-formed fields the decoder reads the fields and aborts
storing the seventeenth into the 16-slot `ArrayVec`, and never produces
`ValueOutOfRange`. -/
theorem c1_seventeen_fields_abort_without_value_out_of_range :
    MultisigSpendingCondition.from_bytes c1Input = .abort ∧
    MultisigSpendingCondition.from_bytes c1Input ≠ .err .valueOutOfRange := by
  constructor
  · decide
  · decide

/-- A 66-byte singlesig witness region with every byte 0xFF. -/
def c2Region : List Nat := List.replicate 66 255

/-- Claim C2: clearing a singlesig witness should set the tag byte to
Compressed and zero all 65 signature bytes (bytes 1..66).  The source
issues both `write_bytes` calls from the region start, so it zeroes
bytes 0..65 and leaves the final signature byte (byte 65) untouched:
here it is still 0xFF after clearing. -/
theorem c2_clear_signature_leaves_last_signature_byte :
    (SinglesigSpendingCondition.clear_signature c2Region 0)[0]? = some 0 ∧
    (SinglesigSpendingCondition.clear_signature c2Region 0)[64]? = some 0 ∧
    (SinglesigSpendingCondition.clear_signature c2Region 0)[65]? = some 255 := by
  refine ⟨?_, ?_, ?_⟩ <;> decide

/-- A parsed singlesig condition used to exhibit the undersized-buffer
error of init_sighash. -/
def c6SinglesigCond : TransactionSpendingCondition :=
  ⟨⟨List.replicate 37 0⟩, .Singlesig ⟨List.replicate 66 0⟩⟩

/-- Claim C6 as stated is false: on an undersized destination,
init_sighash fails with `parser_no_data` of the source (`NoData` in
the spec taxonomy), not with `InsufficientData`. -/
theorem c6_counterexample :
    (c6SinglesigCond.init_sighash (List.replicate 81 7)).2 = .error .noData ∧
    (c6SinglesigCond.init_sighash (List.replicate 81 7)).2 ≠
      .error .insufficientData := by
  refine ⟨?_, ?_⟩ <;> decide

/-- Claim C6, amended: on a destination shorter than the required
placeholder length (82 bytes for singlesig, 22 for multisig),
init_sighash fails with `NoData` and returns the buffer unchanged. -/
theorem c6_undersized_init_sighash_fails_nodata
    (c : TransactionSpendingCondition) (buf : List Nat)
    (hs : c.is_singlesig = true → buf.length < STANDARD_SINGLESIG_AUTH_LEN)
    (hm : c.is_multisig = true → buf.length < STANDARD_MULTISIG_AUTH_LEN) :
    c.init_sighash buf = (buf, .error .noData) := by
  unfold TransactionSpendingCondition.init_sighash
  simp only [STANDARD_SINGLESIG_AUTH_LEN, STANDARD_MULTISIG_AUTH_LEN] at hs hm ⊢
  split_ifs with h1 h2
  · exact absurd (hs h1.1) (by omega)
  · exact absurd (hm h2.1) (by omega)
  · rfl

/-- A parsed multisig condition used by the C6 witness. -/
def c6MultisigCond : TransactionSpendingCondition :=
  ⟨⟨List.replicate 37 0⟩, .Multisig ⟨List.replicate 6 0, [], 0⟩⟩

/-- Witness for the amended claim C6 at a concrete multisig condition
and a 21-byte destination. -/
theorem c6_undersized_init_sighash_fails_nodata_witness :
    c6MultisigCond.init_sighash (List.replicate 21 3) =
      (List.replicate 21 3, .error .noData) :=
  c6_undersized_init_sighash_fails_nodata c6MultisigCond (List.replicate 21 3)
    (by decide) (by decide)

/-- Claim C7: multisig clear_signature zeroes the raw span except its
final two bytes and leaves the final two bytes and everything outside
the span unchanged.  `off` and `len` locate the raw span in the buffer. -/
theorem c7_multisig_clear_signature_frame (buf : List Nat) (off len : Nat)
    (h2 : 2 ≤ len) (hle : off + len ≤ buf.length) :
    (∀ i, off ≤ i → i < off + (len - 2) →
      (MultisigSpendingCondition.clear_signature buf off len)[i]? = some 0) ∧
    (∀ i, i < off ∨ off + (len - 2) ≤ i →
      (MultisigSpendingCondition.clear_signature buf off len)[i]? = buf[i]?) := by
  unfold MultisigSpendingCondition.clear_signature
  constructor
  · intro i hi1 hi2
    rw [getElem?_writeBytes, if_pos ⟨hi1, by omega, by omega⟩]
  · intro i hi
    rcases hi with hi | hi
    · rw [getElem?_writeBytes, if_neg (by omega)]
    · rw [getElem?_writeBytes, if_neg (by omega)]

/-- An 8-byte buffer holding a 6-byte raw span at offset 1. -/
def c7Buf : List Nat := List.replicate 8 9

/-- Witness for claim C7: clearing the span zeroes an interior byte and
leaves the byte before the final two untouched bytes of the span
unchanged. -/
theorem c7_multisig_clear_signature_frame_witness :
    (MultisigSpendingCondition.clear_signature c7Buf 1 6)[2]? = some 0 ∧
    (MultisigSpendingCondition.clear_signature c7Buf 1 6)[5]? = some 9 := by
  constructor
  · exact (c7_multisig_clear_signature_frame c7Buf 1 6 (by decide) (by decide)).1 2
      (by decide) (by decide)
  · exact ((c7_multisig_clear_signature_frame c7Buf 1 6 (by decide) (by decide)).2 5
      (Or.inr (by decide))).trans (by decide)

/-- Claim C8: canonicalization is idempotent at the buffer level, for
both the singlesig and the multisig variant. -/
theorem c8_clear_signature_idempotent (sig : SpendingConditionSignature)
    (buf : List Nat) (off : Nat) :
    sig.clear_signature (sig.clear_signature buf off) off =
      sig.clear_signature buf off := by
  cases sig with
  | Singlesig s =>
    show SinglesigSpendingCondition.clear_signature
        (SinglesigSpendingCondition.clear_signature buf off) off =
      SinglesigSpendingCondition.clear_signature buf off
    have habs : ∀ Y : List Nat, SinglesigSpendingCondition.clear_signature Y off =
        writeBytes Y off 0 SIGNATURE_LEN := by
      intro Y
      unfold SinglesigSpendingCondition.clear_signature
      rw [show TransactionPublicKeyEncoding.Compressed.toByte = 0 from rfl]
      exact writeBytes_absorb Y off 0 1 SIGNATURE_LEN
        (by unfold SIGNATURE_LEN; omega)
    rw [habs, habs, writeBytes_absorb _ _ _ _ _ (Nat.le_refl _)]
  | Multisig m =>
    show MultisigSpendingCondition.clear_signature
        (MultisigSpendingCondition.clear_signature buf off m.raw.length) off
        m.raw.length =
      MultisigSpendingCondition.clear_signature buf off m.raw.length
    unfold MultisigSpendingCondition.clear_signature
    exact writeBytes_absorb _ _ _ _ _ (Nat.le_refl _)

/-- Claim C4: whenever the multisig decoder reads a field count `n`,
successfully decodes the `n` auth fields and then reads a
required-signature count strictly greater than `n`, it fails with
`ValueOutOfRange` and yields no partial result. -/
theorem c4_required_signatures_exceeding_field_count_fails
    (bs end0 end1 end2 : List Nat) (n s : Nat)
    (flds : List TransactionAuthField)
    (h1 : be_u32 bs = .ok (end0, n))
    (h2 : parseAuthFields n 0 end0 = .ok (end1, flds))
    (h3 : be_u16 end1 = .ok (end2, s))
    (h4 : n < s) :
    MultisigSpendingCondition.from_bytes bs = .err .valueOutOfRange := by
  unfold MultisigSpendingCondition.from_bytes
  rw [h1]
  dsimp only
  rw [h2]
  dsimp only
  rw [h3]
  dsimp only
  rw [if_pos h4]

/-- Multisig witness bytes with one auth field but a required-signature
count of 2. -/
def c4Input : List Nat := [0, 0, 0, 1] ++ 0 :: List.replicate 33 5 ++ [0, 2]

/-- Witness for claim C4 at a concrete one-field input requiring two
signatures. -/
theorem c4_required_signatures_exceeding_field_count_fails_witness :
    MultisigSpendingCondition.from_bytes c4Input = .err .valueOutOfRange :=
  c4_required_signatures_exceeding_field_count_fails c4Input
    (0 :: List.replicate 33 5 ++ [0, 2]) [0, 2] [] 1 2
    [.PublicKey .Compressed (List.replicate 33 5)]
    (by decide) (by decide) (by decide) (by decide)

/-- Leftover, required_signatures and num_auth_fields of a successful
top-level parse. -/
def parseView (r : PRes (List Nat × TransactionSpendingCondition)) :
    Option (List Nat × Option Nat × Option Nat) :=
  match r with
  | .ok (l, c) => some (l, c.required_signatures, c.num_auth_fields)
  | _ => none

/-- Well-formed P2SH spending condition: signer with nonce 123 and fee
456, then 3 auth fields (two uncompressed signatures and one
uncompressed public key) and a required-signature count of 2. -/
def c9Vec : List Nat :=
  [2] ++ List.replicate 20 17 ++ [0, 0, 0, 0, 0, 0, 0, 123] ++
    [0, 0, 0, 0, 0, 0, 1, 200] ++ [0, 0, 0, 3] ++
    (3 :: List.replicate 65 255) ++ (3 :: List.replicate 65 254) ++
    (1 :: List.replicate 33 3) ++ [0, 2]

set_option maxRecDepth 10000 in
/-- Claim C9: the well-formed P2SH vector parses with
`required_signatures() = Some 2` and `num_auth_fields() = Some 3` (and
no leftover), and on every singlesig condition both accessors return
None. -/
theorem c9_p2sh_vector_parses_and_singlesig_accessors_none :
    parseView (TransactionSpendingCondition.from_bytes c9Vec) =
      some ([], some 2, some 3) ∧
    (∀ c : TransactionSpendingCondition, c.is_singlesig = true →
      c.required_signatures = none ∧ c.num_auth_fields = none) := by
  constructor
  · decide
  · intro c hc
    rcases c with ⟨signer, sig⟩
    cases sig with
    | Singlesig s => exact ⟨rfl, rfl⟩
    | Multisig m =>
      simp [TransactionSpendingCondition.is_singlesig] at hc

/-- A parsed singlesig condition used by the C9 witness. -/
def c9SinglesigCond : TransactionSpendingCondition :=
  ⟨⟨List.replicate 37 1⟩, .Singlesig ⟨List.replicate 66 2⟩⟩

/-- Witness for claim C9 at a concrete singlesig condition. -/
theorem c9_p2sh_vector_parses_and_singlesig_accessors_none_witness :
    c9SinglesigCond.required_signatures = none ∧
    c9SinglesigCond.num_auth_fields = none :=
  c9_p2sh_vector_parses_and_singlesig_accessors_none.2 c9SinglesigCond rfl

/-- Claim C5: init_sighash on a singlesig condition with a destination
of at least 82 bytes zeroes the first 82 bytes and returns 82; on a
multisig condition with a destination of at least 22 bytes it zeroes
the first 20 bytes, writes the required-signature count big-endian into
bytes 20..22 and returns 22.  Bytes past the written prefix are
untouched. -/
theorem c5_init_sighash_writes_placeholder
    (c : TransactionSpendingCondition) (buf : List Nat) :
    (c.is_singlesig = true → 82 ≤ buf.length →
      ((c.init_sighash buf).2 = .ok 82 ∧
        (c.init_sighash buf).1.length = buf.length ∧
        (∀ i, i < 82 → ((c.init_sighash buf).1)[i]? = some 0) ∧
        (∀ i, 82 ≤ i → ((c.init_sighash buf).1)[i]? = buf[i]?))) ∧
    (c.is_multisig = true → 22 ≤ buf.length →
      ∀ rs, c.required_signatures = some rs →
      ((c.init_sighash buf).2 = .ok 22 ∧
        (c.init_sighash buf).1.length = buf.length ∧
        (∀ i, i < 20 → ((c.init_sighash buf).1)[i]? = some 0) ∧
        ((c.init_sighash buf).1)[20]? = some (rs / 256 % 256) ∧
        ((c.init_sighash buf).1)[21]? = some (rs % 256) ∧
        (∀ i, 22 ≤ i → ((c.init_sighash buf).1)[i]? = buf[i]?))) := by
  constructor
  · intro hsingle hlen
    have hif : c.init_sighash buf = (writeBytes buf 0 0 82, .ok 82) := by
      unfold TransactionSpendingCondition.init_sighash
      simp only [STANDARD_SINGLESIG_AUTH_LEN]
      rw [if_pos ⟨hsingle, hlen⟩]
    rw [hif]
    refine ⟨rfl, length_writeBytes _ _ _ _, ?_, ?_⟩
    · intro i hi
      rw [getElem?_writeBytes, if_pos ⟨Nat.zero_le _, by omega, by omega⟩]
    · intro i hi
      rw [getElem?_writeBytes, if_neg (by omega)]
  · intro hmulti hlen rs hrs
    rcases c with ⟨signer, sig⟩
    cases sig with
    | Singlesig s =>
      simp [TransactionSpendingCondition.is_multisig] at hmulti
    | Multisig m =>
      have hreq : (⟨signer, .Multisig m⟩ : TransactionSpendingCondition).required_signatures
          = some m.signatures_required := rfl
      rw [hreq] at hrs
      obtain rfl : m.signatures_required = rs := Option.some.inj hrs
      have hif : TransactionSpendingCondition.init_sighash ⟨signer, .Multisig m⟩ buf =
          (((writeBytes buf 0 0 20).set 20 (m.signatures_required / 256 % 256)).set 21
              (m.signatures_required % 256),
            .ok 22) := by
        unfold TransactionSpendingCondition.init_sighash
        simp only [STANDARD_SINGLESIG_AUTH_LEN, STANDARD_MULTISIG_AUTH_LEN]
        rw [if_neg (by
          intro hcon
          simp [TransactionSpendingCondition.is_singlesig] at hcon)]
        rw [if_pos ⟨rfl, hlen⟩]
        rw [hreq]
      rw [hif]
      have hlen20 : (writeBytes buf 0 0 20).length = buf.length :=
        length_writeBytes _ _ _ _
      refine ⟨rfl, ?_, ?_, ?_, ?_, ?_⟩
      · simp only [List.length_set, hlen20]
      · intro i hi
        rw [List.getElem?_set, if_neg (by omega), List.getElem?_set, if_neg (by omega),
          getElem?_writeBytes, if_pos ⟨Nat.zero_le _, by omega, by omega⟩]
      · rw [List.getElem?_set, if_neg (by omega), List.getElem?_set, if_pos rfl,
          hlen20, if_pos (by omega)]
      · rw [List.getElem?_set, if_pos rfl, List.length_set, hlen20, if_pos (by omega)]
      · intro i hi
        rw [List.getElem?_set, if_neg (by omega), List.getElem?_set, if_neg (by omega),
          getElem?_writeBytes, if_neg (by omega)]

/-- Claim C3: on a buffer long enough to hold the signer record and the
singlesig witness, a P2WPKH hash mode byte combined with a witness tag
byte other than Compressed (0) makes the dispatcher fail with
`InvalidPublicKeyEncoding`, whatever the 65 signature bytes hold. -/
theorem c3_p2wpkh_noncompressed_tag_fails (bs : List Nat)
    (hlen : 103 ≤ bs.length) (hmode : bs.getD 0 0 = 1)
    (htag : bs.getD 37 0 ≠ 0) :
    TransactionSpendingCondition.from_bytes bs = .err .invalidPublicKeyEncoding := by
  have hsig := signer_from_bytes_of_le bs (by omega)
  have hss := singlesig_from_bytes_of_le (bs.drop 37) (by
    rw [List.length_drop]
    omega)
  have hhm : SpendingConditionSigner.hash_mode ⟨bs.take 37⟩ = .ok .P2WPKH := by
    unfold SpendingConditionSigner.hash_mode
    have ht : (bs.take 37).getD 0 0 = 1 := by
      rw [getD_take_of_lt bs 37 0 (by omega), hmode]
    dsimp only
    rw [ht]
    rfl
  have hv37 : ((bs.drop 37).take 66).getD 0 0 = bs.getD 37 0 := by
    rw [getD_take_of_lt _ 66 0 (by omega), getD_drop_add bs 37 0]
  unfold TransactionSpendingCondition.from_bytes
  rw [hsig]
  dsimp only
  rw [hhm]
  dsimp only
  rw [hss]
  dsimp only
  unfold SinglesigSpendingCondition.key_encoding
  dsimp only
  rw [hv37]
  cases h37 : bs.getD 37 0 with
  | zero => exact absurd h37 htag
  | succ w =>
    cases w with
    | zero => rfl
    | succ u => rfl

/-- Concrete 103-byte P2WPKH input whose witness tag byte is
Uncompressed. -/
def c3Vec : List Nat :=
  [1] ++ List.replicate 36 17 ++ [1] ++ List.replicate 65 255

/-- Witness for claim C3 at the concrete P2WPKH input. -/
theorem c3_p2wpkh_noncompressed_tag_fails_witness :
    TransactionSpendingCondition.from_bytes c3Vec =
      .err .invalidPublicKeyEncoding :=
  c3_p2wpkh_noncompressed_tag_fails c3Vec (by decide) (by decide) (by decide)

theorem signer_tracked_eq (bytes : List Nat) :
    SpendingConditionSigner.from_bytes_tracked bytes =
      (bytes, SpendingConditionSigner.from_bytes bytes) := by
  unfold SpendingConditionSigner.from_bytes_tracked
    SpendingConditionSigner.from_bytes
  rcases h : take SPENDING_CONDITION_SIGNER_LEN bytes with ⟨raw, d⟩ | e | _ <;> rfl

theorem singlesig_tracked_eq (bytes : List Nat) :
    SinglesigSpendingCondition.from_bytes_tracked bytes =
      (bytes, SinglesigSpendingCondition.from_bytes bytes) := by
  unfold SinglesigSpendingCondition.from_bytes_tracked
    SinglesigSpendingCondition.from_bytes
  rcases h : take (SIGNATURE_LEN + 1) bytes with ⟨raw, d⟩ | e | _ <;> rfl

theorem multisig_tracked_eq (bytes : List Nat) :
    MultisigSpendingCondition.from_bytes_tracked bytes =
      (bytes, MultisigSpendingCondition.from_bytes bytes) := by
  unfold MultisigSpendingCondition.from_bytes_tracked
    MultisigSpendingCondition.from_bytes
  rcases h1 : be_u32 bytes with ⟨end0, n⟩ | e | _
  · dsimp only
    rcases h2 : parseAuthFields n 0 end0 with ⟨end1, flds⟩ | e | _
    · dsimp only
      rcases h3 : be_u16 end1 with ⟨end2, s⟩ | e | _
      · dsimp only
        by_cases h4 : n < s
        · rw [if_pos h4, if_pos h4]
        · rw [if_neg h4, if_neg h4]
          rcases h5 : take (bytes.length - end2.length) bytes with ⟨rest, raw⟩ | e | _
            <;> rfl
      · rfl
      · rfl
    · rfl
    · rfl
  · rfl
  · rfl

/-- Claim C10: the whole parse path never mutates the input buffer — the
buffer-tracking dispatcher returns the buffer unchanged (and agrees with
the plain dispatcher) on every input, whether parsing succeeds or
fails. -/
theorem c10_from_bytes_never_mutates_buffer (bytes : List Nat) :
    (TransactionSpendingCondition.from_bytes_tracked bytes).1 = bytes ∧
    (TransactionSpendingCondition.from_bytes_tracked bytes).2 =
      TransactionSpendingCondition.from_bytes bytes := by
  unfold TransactionSpendingCondition.from_bytes_tracked
    TransactionSpendingCondition.from_bytes
  rw [signer_tracked_eq]
  dsimp only
  rcases hs : SpendingConditionSigner.from_bytes bytes with ⟨raw, signer⟩ | e | _
  · dsimp only
    have hsplice : bytes.take SPENDING_CONDITION_SIGNER_LEN ++ raw = bytes := by
      by_cases hl : 37 ≤ bytes.length
      · rw [signer_from_bytes_of_le bytes hl] at hs
        injection hs with h
        injection h with hraw hsigner
        rw [← hraw]
        simp only [SPENDING_CONDITION_SIGNER_LEN]
        exact List.take_append_drop 37 bytes
      · rw [signer_from_bytes_of_gt bytes (by omega)] at hs
        cases hs
    rcases hh : SpendingConditionSigner.hash_mode signer with e | hm
    · exact ⟨rfl, rfl⟩
    · dsimp only
      cases hm with
      | P2PKH =>
        dsimp only
        rw [singlesig_tracked_eq]
        dsimp only
        rw [hsplice]
        rcases hss : SinglesigSpendingCondition.from_bytes raw with ⟨raw2, sig⟩ | e | _
        · dsimp only
          rcases he : sig.key_encoding with e | enc
          · exact ⟨rfl, rfl⟩
          · exact ⟨rfl, rfl⟩
        · exact ⟨rfl, rfl⟩
        · exact ⟨rfl, rfl⟩
      | P2WPKH =>
        dsimp only
        rw [singlesig_tracked_eq]
        dsimp only
        rw [hsplice]
        rcases hss : SinglesigSpendingCondition.from_bytes raw with ⟨raw2, sig⟩ | e | _
        · dsimp only
          rcases he : sig.key_encoding with e | enc
          · exact ⟨rfl, rfl⟩
          · exact ⟨rfl, rfl⟩
        · exact ⟨rfl, rfl⟩
        · exact ⟨rfl, rfl⟩
      | P2SH =>
        dsimp only
        rw [multisig_tracked_eq]
        dsimp only
        rw [hsplice]
        rcases hms : MultisigSpendingCondition.from_bytes raw with ⟨leftover, m⟩ | e | _
          <;> exact ⟨rfl, rfl⟩
      | P2WSH =>
        dsimp only
        rw [multisig_tracked_eq]
        dsimp only
        rw [hsplice]
        rcases hms : MultisigSpendingCondition.from_bytes raw with ⟨leftover, m⟩ | e | _
          <;> exact ⟨rfl, rfl⟩
  · exact ⟨rfl, rfl⟩
  · exact ⟨rfl, rfl⟩

/-- A parsed singlesig condition used by the C5 witness. -/
def c5SinglesigCond : TransactionSpendingCondition :=
  ⟨⟨List.replicate 37 4⟩, .Singlesig ⟨List.replicate 66 4⟩⟩

/-- A parsed multisig condition requiring 515 signatures (big-endian
bytes 2 and 3), used by the C5 witness. -/
def c5MultisigCond : TransactionSpendingCondition :=
  ⟨⟨List.replicate 37 4⟩, .Multisig ⟨List.replicate 6 4, [], 515⟩⟩

/-- Witness for claim C5: concrete singlesig and multisig conditions
with adequate destinations. -/
theorem c5_init_sighash_writes_placeholder_witness :
    ((c5SinglesigCond.init_sighash (List.replicate 82 9)).2 = .ok 82 ∧
      ((c5SinglesigCond.init_sighash (List.replicate 82 9)).1)[81]? = some 0) ∧
    (((c5MultisigCond.init_sighash (List.replicate 23 9)).2 = .ok 22 ∧
      ((c5MultisigCond.init_sighash (List.replicate 23 9)).1)[20]? = some 2 ∧
      ((c5MultisigCond.init_sighash (List.replicate 23 9)).1)[21]? = some 3 ∧
      ((c5MultisigCond.init_sighash (List.replicate 23 9)).1)[22]? = some 9)) := by
  have hs := (c5_init_sighash_writes_placeholder c5SinglesigCond
    (List.replicate 82 9)).1 rfl (by decide)
  have hmm := (c5_init_sighash_writes_placeholder c5MultisigCond
    (List.replicate 23 9)).2 rfl (by decide) 515 rfl
  refine ⟨⟨hs.1, hs.2.2.1 81 (by decide)⟩,
    ⟨hmm.1, ?_, ?_, (hmm.2.2.2.2.2 22 (by decide)).trans (by decide)⟩⟩
  · exact hmm.2.2.2.1.trans (by decide)
  · exact hmm.2.2.2.2.1.trans (by decide)

end Stx
